import Mathlib

/-!
Shallow embedding of the falcon admission pipeline (HumanCellAtlas/falcon).

The repository holds several near-duplicate historical revisions of the same
components.  This development embeds, faithfully to each source file:

* `falcon/queue_handler.py`  — the older intake poller revision
  (`retrieve_workflows` without an exception handler, `execution`,
  `rebuild_queue`, `enqueue`, `prepare_workflows`,
  `is_workflow_list_in_oldest_first_order`, `_assemble_workflow`);
* `falcon/app/queue_handler.py` — the newer intake poller revision
  (`retrieve_workflows` with `try/except/finally: return`, `execution_event`,
  `set_queue`; its `prepare_workflows` and ordering helper are semantically
  identical to the older revision's);
* `falcon/igniter.py` — the release engine (`execution_event`,
  `release_workflow`, `abort_workflow`, `workflow_is_duplicate`).

External HTTP calls are modelled as outcome parameters: the engine either
returns a response (status code plus optional parsed `results` list) or the
call raises a transport-layer exception (`requests` `ConnectionError` /
`RequestException`, which every handler in the source catches as one group).
Python exceptions that the source can let escape are modelled with `Except`.
Submission and bundle-version timestamps are modelled as `Option Nat`
(`none` = the string is absent or unparseable, i.e. `strptime` raises
`ValueError`); the parse is order-preserving, which is all the source uses.
-/

/-- Python exceptions that can propagate out of the embedded code paths. -/
inductive PyExn where
  | indexError
  | keyError
  | connectionError
deriving Repr, DecidableEq

/-- Response of an engine call whose JSON body may carry a `results` list of
`α` blocks.  `results := none` models a body without a `'results'` key (for
example the error bodies the Cromwell simulator in the test suite returns for
non-2xx statuses); subscripting such a body raises `KeyError`. -/
structure PyResponse (α : Type) where
  status_code : Nat
  results : Option (List α)
deriving Repr, DecidableEq

/-- Outcome of one engine query call: either a response object, or the
transport layer raised (`requests.exceptions.ConnectionError` /
`RequestException`, always caught together in the source). -/
inductive EngineOutcome (α : Type) where
  | resp (r : PyResponse α)
  | transportError
deriving Repr, DecidableEq

/-- Outcome of one release-hold (or abort) engine call: a status code, or a
transport error. -/
inductive ReleaseOutcome where
  | resp (status_code : Nat)
  | transportError
deriving Repr, DecidableEq

/-! Section: Data model of the queue handler (`falcon/queue_handler.py`) -/

/-- Embeds `queue_handler.Workflow`: the fields `_assemble_workflow` fills in.
The source class stores whatever values `.get(...)` produced, so each field is
optional. -/
structure Workflow where
  id : Option String
  bundle_uuid : Option String
  bundle_version : Option String
deriving Repr, DecidableEq

/-- One workflow metadata block of an engine query result, as read by the
queue handler: the `'id'` field, the `'labels'` sub-map when present, and the
`'submission'` timestamp (`none` when missing or unparseable by
`datetime.strptime`, which raises `ValueError`). -/
structure WorkflowMeta where
  id : Option String
  labels : Option (List (String × String))
  submission : Option Nat
deriving Repr, DecidableEq

/-- Embeds `QueueHandler._assemble_workflow` (identical in both revisions):
`id` from the block, `bundle-uuid` / `bundle-version` looked up in the
`labels` sub-map when that sub-map exists, else `None`. -/
def assembleWorkflow (m : WorkflowMeta) : Workflow :=
  ⟨m.id,
   m.labels.bind (fun ls => ls.lookup "bundle-uuid"),
   m.labels.bind (fun ls => ls.lookup "bundle-version")⟩

/-- Embeds `QueueHandler.is_workflow_list_in_oldest_first_order` (both
revisions are semantically identical).  On an empty list `workflow_list[0]`
raises `IndexError`, which the source's `except ValueError` does not catch.
Otherwise the first and last submission timestamps are parsed; if either
parse raises `ValueError` the function logs and returns `True`; otherwise it
returns `head <= tail`. -/
def is_workflow_list_in_oldest_first_order :
    List WorkflowMeta → Except PyExn Bool
  | [] => .error .indexError
  | m :: rest =>
    match m.submission, (rest.getLastD m).submission with
    | some h, some t => .ok (decide (h ≤ t))
    | _, _ => .ok true

/-- Ordering step of `QueueHandler.prepare_workflows`: reverse the metadata
list when it is not already oldest-first. -/
def normalizeMetas (metas : List WorkflowMeta) :
    Except PyExn (List WorkflowMeta) := do
  let oldestFirst ← is_workflow_list_in_oldest_first_order metas
  pure (if oldestFirst then metas else metas.reverse)

/-- Embeds `QueueHandler.prepare_workflows` (identical in both revisions):
normalize the order, then map `_assemble_workflow` over the blocks.  (The
source returns a lazy `map` iterator; `assembleWorkflow` is total, so the
strict list is observationally the same once the iterator is consumed.) -/
def prepare_workflows (metas : List WorkflowMeta) :
    Except PyExn (List Workflow) := do
  let ordered ← normalizeMetas metas
  pure (ordered.map assembleWorkflow)

/-! Section: queue mutations.

One poll cycle touches the shared queue through exactly two primitives:
`rebuild_queue`/`set_queue` (swap in a brand-new empty queue) and
`workflow_queue.put` inside `enqueue`.  A cycle is embedded as the list of
these operations it performs, in order; interpreting the list over a queue
state (a FIFO modelled front-first) gives the queue contents after the
cycle. -/

/-- One mutation of the shared queue. -/
inductive QueueOp where
  | swapFresh
  | put (w : Workflow)
deriving Repr, DecidableEq

/-- Effect of one queue operation on the queue contents (front of the FIFO at
the head of the list). -/
def applyOp (q : List Workflow) : QueueOp → List Workflow
  | .swapFresh => []
  | .put w => q ++ [w]

/-- Effect of a whole poll cycle's queue operations. -/
def applyOps (q : List Workflow) (ops : List QueueOp) : List Workflow :=
  ops.foldl applyOp q

/-- Queue contents after a poll cycle: if the cycle escaped with an exception
it had performed no queue operation (in both source revisions the engine
query precedes every queue mutation), so the queue is untouched. -/
def queueAfter (q : List Workflow) : Except PyExn (List QueueOp) → List Workflow
  | .error _ => q
  | .ok ops => applyOps q ops

/-- Reduction of monadic `pure` on `Except` (definitional; stated for
`simp`). -/
@[simp]
theorem exceptPure_eq {ε α : Type} (x : α) : (pure x : Except ε α) = Except.ok x := rfl

/-- Reduction of monadic bind on an `Except.ok` (definitional; stated for
`simp`). -/
@[simp]
theorem exceptBind_ok {ε α β : Type} (x : α) (f : α → Except ε β) :
    (Except.ok x : Except ε α) >>= f = f x := rfl

/-- Reduction of monadic bind on an `Except.error` (definitional; stated for
`simp`). -/
@[simp]
theorem exceptBind_error {ε α β : Type} (e : ε) (f : α → Except ε β) :
    (Except.error e : Except ε α) >>= f = Except.error e := rfl

/-- Reduction of `Functor.map` on an `Except.ok` (definitional; stated for
`simp`). -/
@[simp]
theorem exceptMap_ok {ε α β : Type} (f : α → β) (x : α) :
    f <$> (Except.ok x : Except ε α) = Except.ok (f x) := rfl

/-! Section: Intake poller, older revision (`falcon/queue_handler.py`) -/

/-- Embeds the older `QueueHandler.retrieve_workflows` (lines 107-123).  It
has no `try/except`: a transport-layer exception from
`cromwell_tools.query_workflows` propagates to the caller.  A non-200 status
yields `None`; on 200 the body's `'results'` key is read (`KeyError` when the
body has none). -/
def retrieve_workflows_v0 (o : EngineOutcome WorkflowMeta) :
    Except PyExn (Option (List WorkflowMeta)) :=
  match o with
  | .transportError => .error .connectionError
  | .resp r =>
    if r.status_code ≠ 200 then .ok none
    else
      match r.results with
      | none => .error .keyError
      | some ms => .ok (some ms)

/-- Embeds one iteration of the older `QueueHandler.execution` loop body
(lines 188-200): retrieve, and when the result is truthy (not `None` and not
the empty list) prepare the workflows, swap in a fresh queue
(`rebuild_queue(create_empty_queue(-1))`), then enqueue each prepared
workflow; otherwise only log.  The sleep closes every non-raising cycle. -/
def pollCycle_v0 (o : EngineOutcome WorkflowMeta) :
    Except PyExn (List QueueOp) := do
  let metas ← retrieve_workflows_v0 o
  match metas with
  | none => pure []
  | some [] => pure []
  | some ms => do
    let ws ← prepare_workflows ms
    pure (QueueOp.swapFresh :: ws.map QueueOp.put)

/-! Section: Intake poller, newer revision (`falcon/app/queue_handler.py`) -/

/-- Embeds the newer `QueueHandler.retrieve_workflows` (lines 121-182).
`workflow_metas` starts as `None`; the `try` body fills it only on a 200
response whose body has a `'results'` key; transport errors are caught; and
the `finally: return workflow_metas` swallows any still-propagating exception
(including the `KeyError` of a results-less 200 body), so this revision never
raises and returns `None` on every failure. -/
def retrieve_workflows_app (o : EngineOutcome WorkflowMeta) :
    Option (List WorkflowMeta) :=
  match o with
  | .transportError => none
  | .resp r => if r.status_code ≠ 200 then none else r.results

/-- Embeds the newer `QueueHandler.execution_event` (lines 98-119): same
truthiness test and queue rebuild (`set_queue(create_empty_queue(-1))`) as
the older loop body, over the never-raising retrieve.  `prepare_workflows`
is still called outside any handler, so its (here unreachable) `IndexError`
would escape. -/
def pollCycle_app (o : EngineOutcome WorkflowMeta) :
    Except PyExn (List QueueOp) := do
  match retrieve_workflows_app o with
  | none => pure []
  | some [] => pure []
  | some ms => do
    let ws ← prepare_workflows ms
    pure (QueueOp.swapFresh :: ws.map QueueOp.put)

/-! Section: Release engine (`falcon/igniter.py`) -/

/-- Workflow object as the igniter reads it: `workflow.id` and a
`workflow.labels` dict.  (The `queue_handler.Workflow` class itself does not
yet carry `labels` — its source marks that integration as a TODO — but every
igniter code path under scrutiny reads `workflow.labels`, so the candidate is
embedded with the fields the igniter dereferences.  `bundle_version` is
carried for stating the claims; the igniter source never reads it.) -/
structure LabeledWorkflow where
  id : String
  labels : List (String × String)
  bundle_version : Option Nat
deriving Repr, DecidableEq

/-- Membership test `'force' in workflow.labels.keys()`. -/
def hasLabelKey (w : LabeledWorkflow) (k : String) : Bool :=
  w.labels.any (fun p => p.1 == k)

/-- One result block of the duplicate-resolution query, as the igniter reads
it: only `result['id']` is dereferenced.  The bundle-version and status
fields present in the engine's JSON are carried so the claims about them can
be stated, but the source never reads them. -/
structure ResultBlock where
  id : String
  bundle_version : Option Nat
  status : String
deriving Repr, DecidableEq

/-- Label selector the igniter sends with the duplicate query
(`{'label': f'key-data-hash:{data_hash}'}`; a missing label renders as the
Python string `'None'`). -/
def dupQueryLabel (w : LabeledWorkflow) : String :=
  "key-data-hash:" ++ ((w.labels.lookup "key-data-hash").getD "None")

/-- Embeds `Igniter.workflow_is_duplicate` (lines 118-131).  The status code
of the query response is never inspected: the body's `'results'` key is read
directly (`KeyError` when absent, uncaught), and the judgement is
`any(result['id'] != workflow.id)`.  A transport error is caught and logged,
and the function then returns Python `None` (modelled as `Option.none`). -/
def workflow_is_duplicate (w : LabeledWorkflow)
    (o : EngineOutcome ResultBlock) : Except PyExn (Option Bool) :=
  match o with
  | .transportError => .ok none
  | .resp r =>
    match r.results with
    | none => .error .keyError
    | some rs => .ok (some (rs.any (fun result => result.id != w.id)))

/-- Log outcome recorded by `Igniter.release_workflow` (lines 78-97): info on
200, a warning on any other status, an error log when the transport raised
(the exception is caught). -/
inductive ReleaseLog where
  | released
  | warned (status_code : Nat)
  | transportFailed
deriving Repr, DecidableEq

/-- Embeds `Igniter.release_workflow`: the call's outcome only determines
which log line is emitted; nothing else depends on it, and no status code —
403 included — receives special treatment. -/
def release_workflow (o : ReleaseOutcome) : ReleaseLog :=
  match o with
  | .resp status => if status ≠ 200 then .warned status else .released
  | .transportError => .transportFailed

/-- Python truthiness of the value `workflow_is_duplicate` returns: `None`
is falsy, a `bool` is itself. -/
def pyTruthy : Option Bool → Bool
  | none => false
  | some b => b

/-- Observable effects of one release cycle. -/
structure CycleTrace where
  dupQueries : Nat
  releases : Nat
  aborts : Nat
  releaseLog : Option ReleaseLog
  slept : Bool
deriving Repr, DecidableEq

/-- Embeds `Igniter.execution_event` (lines 55-76).  A non-blocking pop from
the queue; on `queue.Empty` only log and sleep.  For a popped workflow the
condition is

`'force' not in workflow.labels.keys() and self.workflow_is_duplicate(workflow)`

so the duplicate query is short-circuited away for a forced workflow; a
truthy judgement only logs the skip, every other path calls
`release_workflow`.  `abort_workflow` is defined in the source but never
invoked here.  The `finally` block sleeps for `workflow_start_interval` on
every outcome; when `workflow_is_duplicate` raises (results-less body) the
exception escapes this cycle after that sleep. -/
def execution_event (queue : List LabeledWorkflow)
    (qo : EngineOutcome ResultBlock) (ro : ReleaseOutcome) :
    Except PyExn CycleTrace :=
  match queue with
  | [] => .ok ⟨0, 0, 0, none, true⟩
  | w :: _ =>
    if hasLabelKey w "force" then
      .ok ⟨0, 1, 0, some (release_workflow ro), true⟩
    else
      match workflow_is_duplicate w qo with
      | .error e => .error e
      | .ok judgement =>
        if pyTruthy judgement then .ok ⟨1, 0, 0, none, true⟩
        else .ok ⟨1, 1, 0, some (release_workflow ro), true⟩

/-! Section: Ordering predicates and helper lemmas -/

/-- Submission timestamp of a metadata block as a plain number (only used on
blocks whose timestamp is present). -/
def submissionKey (m : WorkflowMeta) : Nat :=
  m.submission.getD 0

/-- Oldest-submission-first order of a metadata list. -/
def submissionsAscending (metas : List WorkflowMeta) : Prop :=
  (metas.map submissionKey).Sorted (· ≤ ·)

/-- Newest-submission-first order of a metadata list. -/
def submissionsDescending (metas : List WorkflowMeta) : Prop :=
  (metas.map submissionKey).Sorted (fun a b => b ≤ a)

instance (metas : List WorkflowMeta) : Decidable (submissionsAscending metas) :=
  List.decidableSorted _

instance (metas : List WorkflowMeta) : Decidable (submissionsDescending metas) :=
  List.decidableSorted _

theorem getLastD_map {α β : Type} (f : α → β) (l : List α) (d : α) :
    (l.map f).getLastD (f d) = f (l.getLastD d) := by
  induction l generalizing d with
  | nil => rfl
  | cons a l ih => rw [List.map_cons, List.getLastD_cons, List.getLastD_cons, ih]

theorem getLastD_mem {α : Type} (l : List α) (d : α) : l.getLastD d ∈ d :: l := by
  induction l generalizing d with
  | nil => simp [List.getLastD]
  | cons a l ih => rw [List.getLastD_cons]; exact List.mem_cons_of_mem _ (ih a)

theorem asc_head_le_getLastD (a : Nat) (s : List Nat)
    (h : (a :: s).Sorted (· ≤ ·)) : a ≤ s.getLastD a := by
  induction s generalizing a with
  | nil => simp
  | cons b s ih =>
    rw [List.getLastD_cons]
    exact le_trans (List.rel_of_sorted_cons h b (by simp)) (ih b h.of_cons)

theorem desc_getLastD_le_head (a : Nat) (s : List Nat)
    (h : (a :: s).Sorted (fun x y => y ≤ x)) : s.getLastD a ≤ a := by
  induction s generalizing a with
  | nil => simp
  | cons b s ih =>
    rw [List.getLastD_cons]
    exact le_trans (ih b h.of_cons) (List.rel_of_sorted_cons h b (by simp))

theorem desc_all_eq_of_head_le_getLastD (a : Nat) (s : List Nat)
    (h : (a :: s).Sorted (fun x y => y ≤ x)) (hle : a ≤ s.getLastD a) :
    ∀ x ∈ a :: s, x = a := by
  induction s generalizing a with
  | nil => simp
  | cons b s ih =>
    rw [List.getLastD_cons] at hle
    have hba : b ≤ a := List.rel_of_sorted_cons h b (by simp)
    have hlb : s.getLastD b ≤ b := desc_getLastD_le_head b s h.of_cons
    have hab : a = b := le_antisymm (le_trans hle hlb) hba
    intro x hx
    rcases List.mem_cons.mp hx with hx | hx
    · exact hx
    · have := ih b h.of_cons (hab ▸ hle) x hx
      omega

theorem sorted_le_of_all_eq (a : Nat) (l : List Nat) (h : ∀ x ∈ l, x = a) :
    l.Sorted (· ≤ ·) := by
  induction l with
  | nil => exact List.sorted_nil
  | cons b l ih =>
    refine List.sorted_cons.mpr ⟨?_, ih (fun x hx => h x (by simp [hx]))⟩
    intro c hc
    rw [h b (by simp), h c (by simp [hc])]

theorem prepare_ok_of_ne_nil (ms : List WorkflowMeta) (hne : ms ≠ []) :
    ∃ ws, prepare_workflows ms = .ok ws ∧ ws.length = ms.length := by
  obtain ⟨m, rest, rfl⟩ := List.exists_cons_of_ne_nil hne
  have hb : ∃ b, is_workflow_list_in_oldest_first_order (m :: rest) = .ok b := by
    rcases hm : m.submission with _ | h <;>
      rcases hsub : (rest.getLastD m).submission with _ | t
    · exact ⟨true, by simp only [is_workflow_list_in_oldest_first_order, hm, hsub]⟩
    · exact ⟨true, by simp only [is_workflow_list_in_oldest_first_order, hm, hsub]⟩
    · exact ⟨true, by simp only [is_workflow_list_in_oldest_first_order, hm, hsub]⟩
    · exact ⟨decide (h ≤ t), by simp only [is_workflow_list_in_oldest_first_order, hm, hsub]⟩
  obtain ⟨b, hb⟩ := hb
  refine ⟨(if b then m :: rest else (m :: rest).reverse).map assembleWorkflow, ?_, ?_⟩
  · simp [prepare_workflows, normalizeMetas, hb]
  · cases b <;> simp

theorem applyOps_puts (acc : List Workflow) (ws : List Workflow) :
    applyOps acc (ws.map QueueOp.put) = acc ++ ws := by
  induction ws generalizing acc with
  | nil => simp [applyOps]
  | cons w ws ih =>
    rw [List.map_cons]
    show applyOps (applyOp acc (QueueOp.put w)) (ws.map QueueOp.put) = _
    rw [ih]
    simp [applyOp]

theorem applyOps_fresh_puts (q : List Workflow) (ws : List Workflow) :
    applyOps q (QueueOp.swapFresh :: ws.map QueueOp.put) = ws := by
  show applyOps (applyOp q QueueOp.swapFresh) (ws.map QueueOp.put) = ws
  rw [show applyOp q QueueOp.swapFresh = [] from rfl, applyOps_puts]
  simp

/-! Section: Concrete instances used by counterexamples and witnesses -/

/-- Candidate workflow `A` with content hash `H` and bundle version `t2`,
without a force label. -/
def wfCand : LabeledWorkflow := ⟨"A", [("key-data-hash", "H")], some 2⟩

/-- Candidate workflow carrying a `force` label. -/
def wfForced : LabeledWorkflow := ⟨"F", [("force", "true"), ("key-data-hash", "H")], some 2⟩

/-- Duplicate-query result block for the candidate itself (`id A`, version
`t2`, On Hold). -/
def resultSelf : ResultBlock := ⟨"A", some 2, "On Hold"⟩

/-- Duplicate-query result block for an On-Hold peer with a strictly older
bundle version (`id B`, version `t1`). -/
def resultOlderPeer : ResultBlock := ⟨"B", some 1, "On Hold"⟩

/-- Duplicate-query result block for an On-Hold peer with a strictly newer
bundle version (`id B`, version `t3`). -/
def resultNewerPeer : ResultBlock := ⟨"B", some 3, "On Hold"⟩

/-- Metadata block of a workflow submitted at time `T1`. -/
def metaT1 : WorkflowMeta := ⟨some "w1", none, some 1⟩

/-- Metadata block of a workflow submitted at time `T2`. -/
def metaT2 : WorkflowMeta := ⟨some "w2", none, some 2⟩

/-- Metadata block of a workflow submitted at time `T3`. -/
def metaT3 : WorkflowMeta := ⟨some "w3", none, some 3⟩

/-- Non-monotone metadata list member: id `a`, submitted second. -/
def metaM1 : WorkflowMeta := ⟨some "a", none, some 2⟩

/-- Non-monotone metadata list member: id `b`, submitted first. -/
def metaM2 : WorkflowMeta := ⟨some "b", none, some 1⟩

/-- Non-monotone metadata list member: id `c`, submitted last. -/
def metaM3 : WorkflowMeta := ⟨some "c", none, some 3⟩

/-! Section: General release-cycle lemmas -/

/-- Release cycle on a forced workflow: the short-circuit of the `and` in
`execution_event` skips the duplicate query entirely and releases. -/
theorem execution_event_forced (w : LabeledWorkflow) (rest : List LabeledWorkflow)
    (qo : EngineOutcome ResultBlock) (ro : ReleaseOutcome)
    (hf : hasLabelKey w "force" = true) :
    execution_event (w :: rest) qo ro =
      .ok ⟨0, 1, 0, some (release_workflow ro), true⟩ := by
  simp [execution_event, hf]

/-- Release cycle on an unforced workflow whose duplicate query returned a
response carrying a results list: the cycle skips when any result id differs
from the candidate's and releases otherwise. -/
theorem execution_event_ok_results (w : LabeledWorkflow) (rest : List LabeledWorkflow)
    (st : Nat) (rs : List ResultBlock) (ro : ReleaseOutcome)
    (hf : hasLabelKey w "force" = false) :
    execution_event (w :: rest) (.resp ⟨st, some rs⟩) ro =
      .ok (if rs.any (fun result => result.id != w.id)
           then ⟨1, 0, 0, none, true⟩
           else ⟨1, 1, 0, some (release_workflow ro), true⟩) := by
  simp only [execution_event, hf, Bool.false_eq_true, if_false, workflow_is_duplicate]
  cases rs.any (fun result => result.id != w.id) <;> simp [pyTruthy]

/-- Release cycle on an unforced workflow whose duplicate query raised a
transport error: `workflow_is_duplicate` catches it and returns `None`,
which is falsy, so the cycle releases. -/
theorem execution_event_transport (w : LabeledWorkflow) (rest : List LabeledWorkflow)
    (ro : ReleaseOutcome) (hf : hasLabelKey w "force" = false) :
    execution_event (w :: rest) .transportError ro =
      .ok ⟨1, 1, 0, some (release_workflow ro), true⟩ := by
  simp [execution_event, hf, workflow_is_duplicate, pyTruthy]

/-! Section: Claim C7 -/

/-- C7, counterexample.  The claim quantifies over every metadata list, but
`prepare_workflows` only compares the first and last submission timestamps:
the non-monotone list with submissions `2, 1, 3` is classified oldest-first
(`2 <= 3`), left unreversed, and comes out not sorted by submission; and the
empty list raises `IndexError` instead of yielding an ordered result. -/
theorem C7_counterexample :
    prepare_workflows [] = .error .indexError ∧
    normalizeMetas [metaM1, metaM2, metaM3] = .ok [metaM1, metaM2, metaM3] ∧
    ¬ submissionsAscending [metaM1, metaM2, metaM3] ∧
    prepare_workflows [metaM1, metaM2, metaM3] =
      .ok [assembleWorkflow metaM1, assembleWorkflow metaM2, assembleWorkflow metaM3] := by
  exact ⟨rfl, rfl, by decide, rfl⟩

/-- C7, amended.  For every nonempty metadata list whose submission
timestamps all parse and which is monotone — entirely oldest-first or
entirely newest-first, the only orders the engine returns —
`prepare_workflows` yields the workflows in oldest-submission-first order:
ordering is decided by comparing the first and last timestamps only, the
list is reversed exactly when the first is strictly newer than the last,
and each block is mapped to its `Workflow` record in that order. -/
theorem C7_amended (metas : List WorkflowMeta)
    (hne : metas ≠ [])
    (hparse : ∀ m ∈ metas, m.submission.isSome)
    (hmono : submissionsAscending metas ∨ submissionsDescending metas) :
    ∃ ms', normalizeMetas metas = .ok ms' ∧ submissionsAscending ms' ∧
      prepare_workflows metas = .ok (ms'.map assembleWorkflow) ∧
      ms'.length = metas.length := by
  obtain ⟨m, rest, rfl⟩ := List.exists_cons_of_ne_nil hne
  obtain ⟨h, hm⟩ := Option.isSome_iff_exists.mp (hparse m (by simp))
  obtain ⟨t, ht⟩ :=
    Option.isSome_iff_exists.mp (hparse (rest.getLastD m) (getLastD_mem rest m))
  have hkm : submissionKey m = h := by simp [submissionKey, hm]
  have hkt : submissionKey (rest.getLastD m) = t := by
    simp only [submissionKey, ht, Option.getD_some]
  have hlastkey :
      (rest.map submissionKey).getLastD (submissionKey m) =
        submissionKey (rest.getLastD m) :=
    getLastD_map submissionKey rest m
  have hord : is_workflow_list_in_oldest_first_order (m :: rest) =
      .ok (decide (h ≤ t)) := by
    simp only [is_workflow_list_in_oldest_first_order, hm, ht]
  by_cases hle : h ≤ t
  · refine ⟨m :: rest, ?_, ?_, ?_, rfl⟩
    · simp [normalizeMetas, hord, hle]
    · rcases hmono with hasc | hdesc
      · exact hasc
      · have hdesc' : (submissionKey m :: rest.map submissionKey).Sorted
            (fun a b => b ≤ a) := hdesc
        have hll : submissionKey m ≤
            (rest.map submissionKey).getLastD (submissionKey m) := by
          rw [hlastkey, hkm, hkt]; exact hle
        have hall := desc_all_eq_of_head_le_getLastD _ _ hdesc' hll
        exact sorted_le_of_all_eq (submissionKey m) _ hall
    · simp [prepare_workflows, normalizeMetas, hord, hle]
  · refine ⟨(m :: rest).reverse, ?_, ?_, ?_, by simp⟩
    · simp [normalizeMetas, hord, hle]
    · rcases hmono with hasc | hdesc
      · exfalso
        have hmono' := asc_head_le_getLastD (submissionKey m) (rest.map submissionKey) hasc
        rw [hlastkey, hkm, hkt] at hmono'
        exact hle hmono'
      · show ((m :: rest).reverse.map submissionKey).Sorted (· ≤ ·)
        rw [List.map_reverse]
        exact List.pairwise_reverse.mpr hdesc
    · simp [prepare_workflows, normalizeMetas, hord, hle]

/-- C7, witness.  The claim's concrete scenario: three workflows submitted
at `T1 < T2 < T3`, received newest-first as `[T3, T2, T1]`, come out of
`prepare_workflows` oldest-first, so the queue yields
`id(T1), id(T2), id(T3)`. -/
theorem C7_witness :
    ([metaT3, metaT2, metaT1] : List WorkflowMeta) ≠ [] ∧
    (∀ m ∈ [metaT3, metaT2, metaT1], m.submission.isSome) ∧
    submissionsDescending [metaT3, metaT2, metaT1] ∧
    (∃ ms', normalizeMetas [metaT3, metaT2, metaT1] = .ok ms' ∧
      submissionsAscending ms' ∧
      prepare_workflows [metaT3, metaT2, metaT1] = .ok (ms'.map assembleWorkflow) ∧
      ms'.length = [metaT3, metaT2, metaT1].length) ∧
    prepare_workflows [metaT3, metaT2, metaT1] =
      .ok [⟨some "w1", none, none⟩, ⟨some "w2", none, none⟩, ⟨some "w3", none, none⟩] :=
  ⟨by decide, by decide, by decide,
   C7_amended [metaT3, metaT2, metaT1] (by decide) (by decide) (Or.inr (by decide)),
   rfl⟩

/-! Section: Claim C8 -/

/-- C8, confirmed.  A poll cycle (older revision, `execution` +
`rebuild_queue` + `enqueue`) that receives a success response with a
nonempty result list performs the queue-identity swap to a brand-new empty
queue strictly before any `put`, and afterwards the queue holds exactly the
`N` prepared `Workflow` records, in the order `prepare_workflows` produced,
whatever the previous queue contents were. -/
theorem C8_fresh_snapshot (q : List Workflow) (ms : List WorkflowMeta)
    (hne : ms ≠ []) :
    ∃ ws, prepare_workflows ms = .ok ws ∧
      pollCycle_v0 (.resp ⟨200, some ms⟩) =
        .ok (QueueOp.swapFresh :: ws.map QueueOp.put) ∧
      queueAfter q (pollCycle_v0 (.resp ⟨200, some ms⟩)) = ws ∧
      ws.length = ms.length := by
  obtain ⟨ws, hws, hlen⟩ := prepare_ok_of_ne_nil ms hne
  obtain ⟨m, rest, rfl⟩ := List.exists_cons_of_ne_nil hne
  have hcyc : pollCycle_v0 (.resp ⟨200, some (m :: rest)⟩) =
      .ok (QueueOp.swapFresh :: ws.map QueueOp.put) := by
    simp [pollCycle_v0, retrieve_workflows_v0, hws]
  exact ⟨ws, hws, hcyc, by simp [hcyc, queueAfter, applyOps_fresh_puts], hlen⟩

/-- C8, witness: a success response carrying one metadata block replaces a
queue that previously held nothing with exactly that one prepared record. -/
theorem C8_witness :
    ([metaT1] : List WorkflowMeta) ≠ [] ∧
    (∃ ws, prepare_workflows [metaT1] = .ok ws ∧
      pollCycle_v0 (.resp ⟨200, some [metaT1]⟩) =
        .ok (QueueOp.swapFresh :: ws.map QueueOp.put) ∧
      queueAfter [] (pollCycle_v0 (.resp ⟨200, some [metaT1]⟩)) = ws ∧
      ws.length = [metaT1].length) :=
  ⟨by decide, C8_fresh_snapshot [] [metaT1] (by decide)⟩

/-! Section: Claim C9 -/

/-- C9, confirmed.  A poll cycle whose engine query returns a non-success
status or raises in transport performs no queue operation: in both handler
revisions no swap and no put is emitted, and the queue contents are exactly
what they were (in the older revision the transport error escapes, but it
does so before any queue mutation). -/
theorem C9_failure_no_mutation (q : List Workflow) (st : Nat)
    (mrs : Option (List WorkflowMeta)) (hst : st ≠ 200) :
    pollCycle_v0 (.resp ⟨st, mrs⟩) = .ok [] ∧
    pollCycle_app (.resp ⟨st, mrs⟩) = .ok [] ∧
    pollCycle_app .transportError = .ok [] ∧
    queueAfter q (pollCycle_v0 (.resp ⟨st, mrs⟩)) = q ∧
    queueAfter q (pollCycle_app (.resp ⟨st, mrs⟩)) = q ∧
    queueAfter q (pollCycle_v0 .transportError) = q ∧
    queueAfter q (pollCycle_app .transportError) = q := by
  have h0 : pollCycle_v0 (.resp ⟨st, mrs⟩) = .ok [] := by
    simp [pollCycle_v0, retrieve_workflows_v0, hst]
  have h1 : pollCycle_app (.resp ⟨st, mrs⟩) = .ok [] := by
    simp [pollCycle_app, retrieve_workflows_app, hst]
  refine ⟨h0, h1, rfl, ?_, ?_, rfl, rfl⟩
  · rw [h0]; rfl
  · rw [h1]; rfl

/-- C9, witness: a 500 response touches neither handler revision's queue. -/
theorem C9_witness :
    (500 : Nat) ≠ 200 ∧
    (pollCycle_v0 (.resp ⟨500, none⟩) = .ok [] ∧
     pollCycle_app (.resp ⟨500, none⟩) = .ok [] ∧
     pollCycle_app .transportError = .ok [] ∧
     queueAfter [] (pollCycle_v0 (.resp ⟨500, none⟩)) = [] ∧
     queueAfter [] (pollCycle_app (.resp ⟨500, none⟩)) = [] ∧
     queueAfter [] (pollCycle_v0 .transportError) = [] ∧
     queueAfter [] (pollCycle_app .transportError) = []) :=
  ⟨by decide, C9_failure_no_mutation [] 500 none (by decide)⟩

/-! Section: Claim C10 -/

/-- C10, confirmed.  A poll cycle that receives a success response with an
empty result list takes the falsy branch of `if workflow_metas:`, so neither
handler revision swaps in a fresh queue or enqueues anything: the previous
snapshot's remaining items stay in place. -/
theorem C10_empty_success_no_mutation (q : List Workflow) :
    pollCycle_v0 (.resp ⟨200, some []⟩) = .ok [] ∧
    pollCycle_app (.resp ⟨200, some []⟩) = .ok [] ∧
    queueAfter q (pollCycle_v0 (.resp ⟨200, some []⟩)) = q ∧
    queueAfter q (pollCycle_app (.resp ⟨200, some []⟩)) = q :=
  ⟨rfl, rfl, rfl, rfl⟩

/-! Section: Claim C6 -/

/-- C6, counterexample.  Two exceptions do escape their cycles: the older
poller's `retrieve_workflows` has no exception handler, so a transport error
terminates the poll cycle; and `workflow_is_duplicate` reads
`response.json()['results']` without checking the status code, so a response
whose body has no `results` key (the engine's usual non-2xx error body)
raises `KeyError` out of the release cycle. -/
theorem C6_counterexample :
    pollCycle_v0 .transportError = .error .connectionError ∧
    execution_event [wfCand] (.resp ⟨400, none⟩) (.resp 200) = .error .keyError := by
  exact ⟨rfl, rfl⟩

/-- C6, amended.  No exception escapes a poll cycle of the newer
(`falcon/app`) handler at all; a poll cycle of the older handler raises only
when the transport raises (or a 200 body lacks `results`); and a release
cycle raises only when the duplicate query returns a body without a
`results` list — on every response that carries a results list, and on every
transport failure, both loops swallow all errors and the cycle completes. -/
theorem C6_amended :
    (∀ o : EngineOutcome WorkflowMeta, ∃ ops, pollCycle_app o = .ok ops) ∧
    (∀ (st : Nat) (mrs : Option (List WorkflowMeta)), (st = 200 → mrs ≠ none) →
      ∃ ops, pollCycle_v0 (.resp ⟨st, mrs⟩) = .ok ops) ∧
    (∀ (queue : List LabeledWorkflow) (st : Nat) (rs : List ResultBlock)
        (ro : ReleaseOutcome),
      ∃ tr, execution_event queue (.resp ⟨st, some rs⟩) ro = .ok tr) ∧
    (∀ (queue : List LabeledWorkflow) (ro : ReleaseOutcome),
      ∃ tr, execution_event queue .transportError ro = .ok tr) := by
  refine ⟨?_, ?_, ?_, ?_⟩
  · intro o
    rcases o with r | _
    · by_cases hst : r.status_code = 200
      · rcases hres : r.results with _ | ms
        · exact ⟨[], by simp [pollCycle_app, retrieve_workflows_app, hst, hres]⟩
        · rcases ms with _ | ⟨m, rest⟩
          · exact ⟨[], by simp [pollCycle_app, retrieve_workflows_app, hst, hres]⟩
          · obtain ⟨ws, hws, _⟩ := prepare_ok_of_ne_nil (m :: rest) (by simp)
            exact ⟨QueueOp.swapFresh :: ws.map QueueOp.put,
              by simp [pollCycle_app, retrieve_workflows_app, hst, hres, hws]⟩
      · exact ⟨[], by simp [pollCycle_app, retrieve_workflows_app, hst]⟩
    · exact ⟨[], rfl⟩
  · intro st mrs hmrs
    rcases mrs with _ | ms
    · have hst : st ≠ 200 := fun hyp => (hmrs hyp) rfl
      exact ⟨[], by simp [pollCycle_v0, retrieve_workflows_v0, hst]⟩
    · by_cases hst : st = 200
      · rcases ms with _ | ⟨m, rest⟩
        · exact ⟨[], by simp [pollCycle_v0, retrieve_workflows_v0, hst]⟩
        · obtain ⟨ws, hws, _⟩ := prepare_ok_of_ne_nil (m :: rest) (by simp)
          exact ⟨QueueOp.swapFresh :: ws.map QueueOp.put,
            by simp [pollCycle_v0, retrieve_workflows_v0, hst, hws]⟩
      · exact ⟨[], by simp [pollCycle_v0, retrieve_workflows_v0, hst]⟩
  · intro queue st rs ro
    rcases queue with _ | ⟨w, rest⟩
    · exact ⟨_, rfl⟩
    · by_cases hf : hasLabelKey w "force"
      · exact ⟨_, execution_event_forced w rest _ ro hf⟩
      · exact ⟨_, execution_event_ok_results w rest st rs ro (by simpa using hf)⟩
  · intro queue ro
    rcases queue with _ | ⟨w, rest⟩
    · exact ⟨_, rfl⟩
    · by_cases hf : hasLabelKey w "force"
      · exact ⟨_, execution_event_forced w rest _ ro hf⟩
      · exact ⟨_, execution_event_transport w rest ro (by simpa using hf)⟩

/-- C6, witness: each clause of the amended statement at a concrete input. -/
theorem C6_witness :
    (∃ ops, pollCycle_app .transportError = .ok ops) ∧
    (∃ ops, pollCycle_v0 (.resp ⟨500, none⟩) = .ok ops) ∧
    (∃ tr, execution_event [wfCand] (.resp ⟨200, some [resultSelf]⟩) (.resp 400) = .ok tr) ∧
    (∃ tr, execution_event [wfCand] .transportError (.resp 400) = .ok tr) :=
  ⟨C6_amended.1 .transportError,
   C6_amended.2.1 500 none (fun hyp => absurd hyp (by decide)),
   C6_amended.2.2.1 [wfCand] 200 [resultSelf] (.resp 400),
   C6_amended.2.2.2 [wfCand] (.resp 400)⟩

/-! Section: Claim C1 -/

/-- C1, counterexample.  `Igniter.workflow_is_duplicate` never compares
bundle versions: it returns `any(result['id'] != workflow.id)`.  For the
claim's own scenario — candidate `A` at version `t2`, query result
`[{id: A, t2, On Hold}, {id: B, t1, On Hold}]` — the strictly older peer `B`
makes the judgement `True`, the candidate is treated as a duplicate, and
release is not called, where the claim demands "not a duplicate" and one
release. -/
theorem C1_counterexample :
    workflow_is_duplicate wfCand (.resp ⟨200, some [resultSelf, resultOlderPeer]⟩) =
      .ok (some true) ∧
    execution_event [wfCand] (.resp ⟨200, some [resultSelf, resultOlderPeer]⟩)
      (.resp 200) = .ok ⟨1, 0, 0, none, true⟩ :=
  ⟨rfl, rfl⟩

/-- C1, amended.  On a successful duplicate query the candidate is judged
NOT a duplicate if and only if no returned result carries an id different
from the candidate's; the bundle versions and hold statuses of the results
play no role, so a result set whose only peer has a strictly older
bundle version still makes the candidate a duplicate, and then release is
not called. -/
theorem C1_dup_judgement (w : LabeledWorkflow) (rest : List LabeledWorkflow)
    (st : Nat) (rs : List ResultBlock) (ro : ReleaseOutcome)
    (hf : hasLabelKey w "force" = false) :
    (workflow_is_duplicate w (.resp ⟨st, some rs⟩) = .ok (some false) ↔
      ∀ result ∈ rs, result.id = w.id) ∧
    execution_event (w :: rest) (.resp ⟨st, some rs⟩) ro =
      .ok (if rs.any (fun result => result.id != w.id)
           then ⟨1, 0, 0, none, true⟩
           else ⟨1, 1, 0, some (release_workflow ro), true⟩) := by
  constructor
  · simp only [workflow_is_duplicate, Except.ok.injEq, Option.some.injEq]
    simp [List.any_eq_false]
  · exact execution_event_ok_results w rest st rs ro hf

/-- C1, witness: with the candidate itself as the only result the judgement
is "not a duplicate" and exactly one release is issued. -/
theorem C1_witness :
    hasLabelKey wfCand "force" = false ∧
    ((workflow_is_duplicate wfCand (.resp ⟨200, some [resultSelf]⟩) = .ok (some false) ↔
        ∀ result ∈ [resultSelf], result.id = wfCand.id) ∧
      execution_event [wfCand] (.resp ⟨200, some [resultSelf]⟩) (.resp 200) =
        .ok (if [resultSelf].any (fun result => result.id != wfCand.id)
             then ⟨1, 0, 0, none, true⟩
             else ⟨1, 1, 0, some (release_workflow (.resp 200)), true⟩)) :=
  ⟨by decide, C1_dup_judgement wfCand [] 200 [resultSelf] (.resp 200) (by decide)⟩

/-! Section: Claim C2 -/

/-- C2, counterexample.  Candidate `A` (no force label) whose duplicate
query returns an On-Hold peer with a strictly newer bundle version (`B`,
`t3`) is judged a duplicate, but the cycle only logs and skips: the abort
operation is called zero times, not exactly once (release is indeed not
called).  `Igniter.abort_workflow` exists in the source but has no caller. -/
theorem C2_counterexample :
    execution_event [wfCand] (.resp ⟨200, some [resultSelf, resultNewerPeer]⟩)
      (.resp 200) = .ok ⟨1, 0, 0, none, true⟩ :=
  rfl

/-- C2, amended.  A candidate without a force label that the release cycle
judges a duplicate (some query result carries a different id) is skipped
with only a log line: neither the abort operation nor the release operation
is called in that cycle, and the cycle ends with the interval sleep. -/
theorem C2_duplicate_skipped (w : LabeledWorkflow) (rest : List LabeledWorkflow)
    (st : Nat) (rs : List ResultBlock) (ro : ReleaseOutcome)
    (hf : hasLabelKey w "force" = false)
    (hdup : rs.any (fun result => result.id != w.id) = true) :
    execution_event (w :: rest) (.resp ⟨st, some rs⟩) ro =
      .ok ⟨1, 0, 0, none, true⟩ := by
  rw [execution_event_ok_results w rest st rs ro hf]
  simp [hdup]

/-- C2, witness: the newer-peer scenario instantiated. -/
theorem C2_witness :
    hasLabelKey wfCand "force" = false ∧
    [resultNewerPeer].any (fun result => result.id != wfCand.id) = true ∧
    execution_event [wfCand] (.resp ⟨200, some [resultNewerPeer]⟩) (.resp 200) =
      .ok ⟨1, 0, 0, none, true⟩ :=
  ⟨by decide, by decide,
   C2_duplicate_skipped wfCand [] 200 [resultNewerPeer] (.resp 200)
     (by decide) (by decide)⟩

/-! Section: Claim C3 -/

/-- C3, counterexample.  When the duplicate query raises a transport error,
`workflow_is_duplicate` catches it, logs, and falls off the end — returning
Python `None`.  `None` is falsy, so the `and`-condition in
`execution_event` fails and the cycle takes the release branch: release IS
called, where the claim demands that neither release nor abort happen. -/
theorem C3_counterexample :
    workflow_is_duplicate wfCand .transportError = .ok none ∧
    execution_event [wfCand] .transportError (.resp 200) =
      .ok ⟨1, 1, 0, some .released, true⟩ :=
  ⟨rfl, rfl⟩

/-- C3, amended.  For a candidate without a force label, a transport failure
of the duplicate-resolution query is caught and converted to `None`, which
the release cycle treats as "not a duplicate": the release operation is
called (abort is not), and the cycle ends with the interval sleep.  (The
query's HTTP status code is never inspected, so there is no separate
non-2xx handling.) -/
theorem C3_transport_releases (w : LabeledWorkflow) (rest : List LabeledWorkflow)
    (ro : ReleaseOutcome) (hf : hasLabelKey w "force" = false) :
    workflow_is_duplicate w .transportError = .ok none ∧
    execution_event (w :: rest) .transportError ro =
      .ok ⟨1, 1, 0, some (release_workflow ro), true⟩ :=
  ⟨rfl, execution_event_transport w rest ro hf⟩

/-- C3, witness: the transport-failure cycle instantiated at the concrete
candidate. -/
theorem C3_witness :
    hasLabelKey wfCand "force" = false ∧
    (workflow_is_duplicate wfCand .transportError = .ok none ∧
      execution_event [wfCand] .transportError (.resp 500) =
        .ok ⟨1, 1, 0, some (release_workflow (.resp 500)), true⟩) :=
  ⟨by decide, C3_transport_releases wfCand [] (.resp 500) (by decide)⟩

/-! Section: Claim C4 -/

/-- C4, code evaluation at the failing input.  In this igniter revision the
interval sleep sits in the `finally` block of `execution_event` and
`release_workflow` gives HTTP 403 no special treatment (it is logged as a
warning like any other non-200 status): a release cycle whose release call
returns 403 still sleeps, exactly as the 404 and 500 cycles do — the
repository's own tests for the earlier `start_workflow` revision instead
demand that the 403 cycle skip the sleep. -/
theorem C4_code_eval :
    execution_event [wfCand] (.resp ⟨200, some [resultSelf]⟩) (.resp 403) =
      .ok ⟨1, 1, 0, some (.warned 403), true⟩ ∧
    execution_event [wfCand] (.resp ⟨200, some [resultSelf]⟩) (.resp 404) =
      .ok ⟨1, 1, 0, some (.warned 404), true⟩ ∧
    execution_event [wfCand] (.resp ⟨200, some [resultSelf]⟩) (.resp 500) =
      .ok ⟨1, 1, 0, some (.warned 500), true⟩ :=
  ⟨rfl, rfl, rfl⟩

/-! Section: Claim C5 -/

/-- C5, confirmed.  For a popped workflow whose labels contain `force`, the
`and` in `execution_event` short-circuits: the duplicate-resolution query is
never invoked (zero duplicate queries) and the release operation is called
once, whatever the duplicate query would have answered. -/
theorem C5_force_bypass (w : LabeledWorkflow) (rest : List LabeledWorkflow)
    (qo : EngineOutcome ResultBlock) (ro : ReleaseOutcome)
    (hf : hasLabelKey w "force" = true) :
    execution_event (w :: rest) qo ro =
      .ok ⟨0, 1, 0, some (release_workflow ro), true⟩ :=
  execution_event_forced w rest qo ro hf

/-- C5, witness: the forced candidate is released even though the query
response reports an On-Hold peer with a newer bundle version. -/
theorem C5_witness :
    hasLabelKey wfForced "force" = true ∧
    execution_event [wfForced] (.resp ⟨200, some [resultNewerPeer]⟩) (.resp 200) =
      .ok ⟨0, 1, 0, some (release_workflow (.resp 200)), true⟩ :=
  ⟨by decide,
   C5_force_bypass wfForced [] (.resp ⟨200, some [resultNewerPeer]⟩) (.resp 200)
     (by decide)⟩
